import Mathlib

/-!
Shallow embedding of the potential-giggle certificate checker
(src/main.rs) and proofs about its check operation.

Timestamps are modelled as `Int` values counting whole Unix seconds:
the program truncates both `checked_at` (`Utc::now().round_subsecs(0)`)
and the certificate expiry (`Utc.timestamp(not_after.timestamp(), 0)`)
to whole seconds before any arithmetic.  Durations in chrono with zero
nanoseconds satisfy `num_seconds = secs` and
`num_days = num_seconds / 86400` with Rust i64 division, which rounds
toward zero; this is `Int.tdiv` here.

The network and the certificate-parsing library are external effects;
they are modelled by an `Env` value recording what each call made by
`check_certificate` would return, in program order.  A raw certificate
is modelled by its parse outcome: `some ts` when
`parse_x509_certificate` succeeds and the notAfter field has Unix
timestamp `ts`, `none` when parsing fails.
-/

/-- A raw DER certificate, modelled by the outcome of
`parse_x509_certificate` on its bytes: `some ts` for a successful parse
whose notAfter timestamp is `ts` (whole seconds), `none` for a parse
error. -/
abbrev RawCertificate := Option Int

/-- Mirror of the Rust struct `CheckResult` (src/main.rs lines 131-139),
with `DateTime<Utc>` fields carried as whole-second Unix timestamps. -/
structure CheckResult where
  ok : Bool
  days : Int
  domain_name : String
  checked_at : Int
  not_after : Int
  seconds : Int
deriving Repr, DecidableEq

/-- Mirror of `CheckResult::new` (src/main.rs lines 179-188): the
zero-filled failure shape, `Utc.timestamp(0, 0)` being Unix time 0. -/
def CheckResult.new (domain_name : String) (checked_at : Int) : CheckResult :=
  { ok := false
    checked_at := checked_at
    domain_name := domain_name
    days := 0
    not_after := 0
    seconds := 0 }

/-- The hard errors `check_certificate` can return through `?` or
`with_context`: DNS-name syntax failure, TCP connect failure, a missing
peer-certificate list, and an empty peer-certificate list. -/
inductive CheckError where
  | nameError : CheckError
  | connectError : CheckError
  | noPeerCertificates : String → CheckError
  | noCertificate : String → CheckError
deriving Repr, DecidableEq

/-- Outcomes of the external calls made by one invocation of
`check_certificate`, in program order: whether
`DNSNameRef::try_from_ascii_str` succeeds, whether `TcpStream::connect`
succeeds, whether the probe `tls.write` succeeds, and what
`get_peer_certificates` returns (`none` models the Rust `None`). -/
structure Env where
  dnsOk : Bool
  tcpOk : Bool
  writeOk : Bool
  peerCerts : Option (List RawCertificate)
deriving Repr, DecidableEq

/-- Mirror of `CheckClient::check_certificate` (src/main.rs lines
78-115).  `checked_at` is the whole-second timestamp taken at the start;
`env` records what the external calls return.  The body follows the
source line by line: name parse and connect errors propagate with `?`;
a probe-write error returns `Ok(CheckResult::new(..))`; a missing or
empty peer chain is a hard `with_context` error; the last certificate
of the chain is parsed, a parse error again returning
`Ok(CheckResult::new(..))`; on success `duration = not_after -
checked_at`, `days = duration.num_days()` (i64 division by 86400,
rounding toward zero) and `seconds = duration.num_seconds()`. -/
def checkCertificate (domain_name : String) (checked_at : Int) (env : Env) :
    Except CheckError CheckResult :=
  if env.dnsOk = false then Except.error CheckError.nameError else
  if env.tcpOk = false then Except.error CheckError.connectError else
  if env.writeOk = false then Except.ok (CheckResult.new domain_name checked_at) else
  match env.peerCerts with
  | none => Except.error (CheckError.noPeerCertificates domain_name)
  | some certificates =>
    match certificates.getLast? with
    | none => Except.error (CheckError.noCertificate domain_name)
    | some certificate =>
      match certificate with
      | none => Except.ok (CheckResult.new domain_name checked_at)
      | some ts =>
        let not_after : Int := ts
        let duration : Int := not_after - checked_at
        Except.ok
          { ok := true
            checked_at := checked_at
            days := Int.tdiv duration 86400
            domain_name := domain_name
            not_after := not_after
            seconds := duration }

/-- Mirror of the `check` subcommand branch of `main` (src/main.rs lines
44-58).  clap collects every positional `DOMAIN_NAME` value, but
`matches.value_of` returns only the first one, and `check_certificate`
is called exactly once on it; `.expect` panics (modelled as `none`) when
no value was given.  The returned list holds the results rendered, one
entry per `println!`. -/
def runCheckCommand (domainValues : List String) (envOf : String → Env) (now : Int) :
    Option (List (Except CheckError CheckResult)) :=
  match domainValues.head? with
  | none => none
  | some domain_name => some [checkCertificate domain_name now (envOf domain_name)]

/-- Civil date (year, month, day) from a count of days since 1970-01-01,
the standard proleptic-Gregorian conversion used by chrono when
formatting a `DateTime<Utc>`. -/
def civilFromDays (z0 : Int) : Int × Nat × Nat :=
  let z := z0 + 719468
  let era : Int := Int.fdiv z 146097
  let doe : Nat := (z - era * 146097).toNat
  let yoe : Nat := (doe - doe / 1460 + doe / 36524 - doe / 146096) / 365
  let y : Int := (yoe : Int) + era * 400
  let doy : Nat := doe - (365 * yoe + yoe / 4 - yoe / 100)
  let mp : Nat := (5 * doy + 2) / 153
  let d : Nat := doy - (153 * mp + 2) / 5 + 1
  let m : Nat := if mp < 10 then mp + 3 else mp - 9
  (if m ≤ 2 then y + 1 else y, m, d)

/-- Two-digit zero padding, as in RFC3339 month, day and time fields. -/
def pad2 (n : Nat) : String := if n < 10 then "0" ++ toString n else toString n

/-- Four-digit zero padding, as in the RFC3339 year field. -/
def pad4 (n : Nat) : String :=
  if n < 10 then "000" ++ toString n
  else if n < 100 then "00" ++ toString n
  else if n < 1000 then "0" ++ toString n
  else toString n

/-- Model of chrono `DateTime<Utc>::to_rfc3339` on a whole-second
timestamp: `YYYY-MM-DDTHH:MM:SS+00:00`. -/
def toRFC3339 (t : Int) : String :=
  let days := Int.fdiv t 86400
  let sod := (t - days * 86400).toNat
  let ymd := civilFromDays days
  let yearStr :=
    if ymd.1 < 0 then "-" ++ pad4 (-ymd.1).toNat
    else if ymd.1 < 10000 then pad4 ymd.1.toNat
    else "+" ++ toString ymd.1.toNat
  yearStr ++ "-" ++ pad2 ymd.2.1 ++ "-" ++ pad2 ymd.2.2 ++ "T" ++
    pad2 (sod / 3600) ++ ":" ++ pad2 (sod % 3600 / 60) ++ ":" ++ pad2 (sod % 60) ++ "+00:00"

/-- Mirror of the Rust struct `CheckResultJSON` (src/main.rs lines
169-176): the serialized shape, with `checked_at` already rendered as an
RFC3339 string and no `not_after` field. -/
structure CheckResultJSON where
  ok : Bool
  days : Int
  domain_name : String
  checked_at : String
  seconds : Int
deriving Repr, DecidableEq

/-- Mirror of `CheckResult::to_json` (src/main.rs lines 190-198). -/
def CheckResult.to_json (r : CheckResult) : CheckResultJSON :=
  { ok := r.ok
    days := r.days
    domain_name := r.domain_name
    checked_at := toRFC3339 r.checked_at
    seconds := r.seconds }

/-- JSON values, as far as the serialized `CheckResultJSON` needs. -/
inductive Json where
  | str : String → Json
  | int : Int → Json
  | bool : Bool → Json
  | obj : List (String × Json) → Json
deriving Repr

/-- Field lookup in a JSON object, as serde_json does on
deserialization. -/
def Json.getField : Json → String → Option Json
  | Json.obj fields, name => fields.lookup name
  | _, _ => none

/-- Model of `serde_json::to_string` on a `CheckResultJSON`: one object
with exactly the five derived fields, in declaration order. -/
def CheckResultJSON.serialize (j : CheckResultJSON) : Json :=
  Json.obj
    [("ok", Json.bool j.ok), ("days", Json.int j.days),
     ("domain_name", Json.str j.domain_name), ("checked_at", Json.str j.checked_at),
     ("seconds", Json.int j.seconds)]

/-- Model of serde deserialization of a `CheckResultJSON`: each derived
field is looked up by name and must have the declared type. -/
def CheckResultJSON.deserialize (v : Json) : Option CheckResultJSON :=
  match v.getField "ok", v.getField "days", v.getField "domain_name",
      v.getField "checked_at", v.getField "seconds" with
  | some (Json.bool ok), some (Json.int days), some (Json.str dn),
      some (Json.str ca), some (Json.int secs) =>
    some { ok := ok, days := days, domain_name := dn, checked_at := ca, seconds := secs }
  | _, _, _, _, _ => none

/-! Concrete environments and results used in counterexamples and
witnesses. -/

/-- Environment of a fully successful check whose last certificate
parses with notAfter timestamp 200. -/
def envGood : Env :=
  { dnsOk := true, tcpOk := true, writeOk := true, peerCerts := some [some 200] }

/-- The result of checking example.com at time 100 under `envGood`. -/
def rGood : CheckResult :=
  { ok := true, days := 0, domain_name := "example.com", checked_at := 100,
    not_after := 200, seconds := 100 }

/-- Environment whose last certificate parses with notAfter timestamp 0,
expired relative to any positive checking time. -/
def envExpired : Env :=
  { dnsOk := true, tcpOk := true, writeOk := true, peerCerts := some [some 0] }

/-- The result of checking example.com at time 1 under `envExpired`:
the certificate expired one second before the check. -/
def resJustExpired : CheckResult :=
  { ok := true, days := 0, domain_name := "example.com", checked_at := 1,
    not_after := 0, seconds := -1 }

/-- The result of checking example.com at time 100 under `envExpired`. -/
def resExpired : CheckResult :=
  { ok := true, days := 0, domain_name := "example.com", checked_at := 100,
    not_after := 0, seconds := -100 }

/-- Environment where the probe write fails after the session was
established. -/
def envWriteFail : Env :=
  { dnsOk := true, tcpOk := true, writeOk := false, peerCerts := some [some 200] }

/-- Environment where the handshake completes but no peer chain is
available. -/
def envNoChain : Env :=
  { dnsOk := true, tcpOk := true, writeOk := true, peerCerts := none }

/-! Helper lemmas shared by the claim theorems. -/

/-- Every `Ok` result of `checkCertificate` is either the zero-filled
failure shape or the success record computed from the last certificate
of the peer chain. -/
lemma checkCertificate_ok_shape (domain : String) (ca : Int) (env : Env) (r : CheckResult)
    (h : checkCertificate domain ca env = Except.ok r) :
    r = CheckResult.new domain ca ∨
    ∃ certs ts, env.peerCerts = some certs ∧ certs.getLast? = some (some ts) ∧
      env.writeOk = true ∧
      r = { ok := true, checked_at := ca, days := Int.tdiv (ts - ca) 86400,
            domain_name := domain, not_after := ts, seconds := ts - ca } := by
  rcases env with ⟨dns, tcp, w, pc⟩
  cases dns <;> cases tcp <;> cases w <;>
    simp only [checkCertificate, Bool.false_eq_true, Bool.true_eq_false] at h <;>
    simp at h
  · exact Or.inl h.symm
  · rcases pc with _ | certs
    · simp at h
    · rcases hgl : certs.getLast? with _ | ⟨_ | ts⟩ <;> simp [hgl] at h
      · exact Or.inl h.symm
      · exact Or.inr ⟨certs, ts, rfl, hgl, rfl, h.symm⟩

/-- Evaluation of `checkCertificate` when every external call succeeds
and the last certificate of the chain parses. -/
lemma checkCertificate_eval_success (domain : String) (ca : Int) (env : Env)
    (certs : List RawCertificate) (ts : Int)
    (hdns : env.dnsOk = true) (htcp : env.tcpOk = true) (hw : env.writeOk = true)
    (hpc : env.peerCerts = some certs) (hgl : certs.getLast? = some (some ts)) :
    checkCertificate domain ca env =
      Except.ok { ok := true, checked_at := ca, days := Int.tdiv (ts - ca) 86400,
                  domain_name := domain, not_after := ts, seconds := ts - ca } := by
  rcases env with ⟨dns, tcp, w, pc⟩
  simp only at hdns htcp hw hpc
  subst hdns htcp hw hpc
  simp [checkCertificate, hgl]

/-- When `checkCertificate` returns `Ok`, the name parse and the TCP
connect both succeeded. -/
lemma checkCertificate_ok_flags (domain : String) (ca : Int) (env : Env) (r : CheckResult)
    (h : checkCertificate domain ca env = Except.ok r) :
    env.dnsOk = true ∧ env.tcpOk = true := by
  rcases env with ⟨dns, tcp, w, pc⟩
  cases dns
  · simp [checkCertificate] at h
  · cases tcp
    · simp [checkCertificate] at h
    · exact ⟨rfl, rfl⟩

/-- Truncating division of a nonpositive integer by a positive one is
nonpositive. -/
lemma tdiv_nonpos_of_nonpos (a : Int) (ha : a ≤ 0) : Int.tdiv a 86400 ≤ 0 := by
  have h1 : (0 : Int) ≤ -a := by omega
  have h2 : (0 : Int) ≤ Int.tdiv (-a) 86400 := Int.tdiv_nonneg h1 (by norm_num)
  have h3 : Int.tdiv (-a) 86400 = -Int.tdiv a 86400 := Int.neg_tdiv a 86400
  omega

/-! Claim theorems. -/

/-- C1 counterexample: under an environment whose last certificate
parses with notAfter 0, a check at time 100 yields a result with
`ok = true` even though `not_after` is earlier than `checked_at`, so
`ok` is not equivalent to the certificate being unexpired. -/
theorem ok_true_despite_expired_cex :
    checkCertificate "example.com" 100 envExpired = Except.ok resExpired
    ∧ resExpired.ok = true
    ∧ resExpired.not_after < resExpired.checked_at :=
  ⟨rfl, rfl, by norm_num [resExpired]⟩

/-- C1 (amended): an `Ok` result of the check operation has `ok = true`
exactly when the probe write succeeded and the last certificate of the
peer chain parsed; expiry relative to `checked_at` plays no part. -/
theorem ok_iff_retrieved_and_parsed (domain : String) (ca : Int) (env : Env) (r : CheckResult)
    (h : checkCertificate domain ca env = Except.ok r) :
    r.ok = true ↔
      env.writeOk = true ∧
        ∃ certs ts, env.peerCerts = some certs ∧ certs.getLast? = some (some ts) := by
  constructor
  · intro hok
    rcases checkCertificate_ok_shape domain ca env r h with hnew | ⟨certs, ts, hpc, hgl, hw, _⟩
    · rw [hnew] at hok
      simp [CheckResult.new] at hok
    · exact ⟨hw, certs, ts, hpc, hgl⟩
  · rintro ⟨hw, certs, ts, hpc, hgl⟩
    obtain ⟨hdns, htcp⟩ := checkCertificate_ok_flags domain ca env r h
    have heval := checkCertificate_eval_success domain ca env certs ts hdns htcp hw hpc hgl
    rw [h] at heval
    injection heval with heq
    rw [heq]

/-- C1 witness: the amended equivalence instantiated at the successful
environment `envGood`. -/
theorem ok_iff_retrieved_and_parsed_witness :
    rGood.ok = true ↔
      envGood.writeOk = true ∧
        ∃ certs ts, envGood.peerCerts = some certs ∧ certs.getLast? = some (some ts) :=
  ok_iff_retrieved_and_parsed "example.com" 100 envGood rGood rfl

/-- C2: when the check subcommand receives the two domain values
example.com and example.org, exactly one check runs and one result is
rendered, for the first domain only. -/
theorem only_first_domain_checked :
    runCheckCommand ["example.com", "example.org"] (fun _ => envGood) 100 =
      some [Except.ok rGood]
    ∧ (runCheckCommand ["example.com", "example.org"] (fun _ => envGood) 100).map
        List.length = some 1 :=
  ⟨rfl, rfl⟩

/-- C3 counterexample: a certificate expired for one second gives
`seconds = -1` and `days = 0`, while the floor of -1 / 86400 is -1, so
`days` is not the floored quotient on negative durations. -/
theorem days_not_floor_cex :
    checkCertificate "example.com" 1 envExpired = Except.ok resJustExpired
    ∧ resJustExpired.ok = true
    ∧ Int.fdiv resJustExpired.seconds 86400 = -1
    ∧ resJustExpired.days = 0
    ∧ resJustExpired.days ≠ Int.fdiv resJustExpired.seconds 86400 :=
  ⟨rfl, rfl, by decide, rfl, by decide⟩

/-- C3 (amended): for every successful check, `days` is
`seconds / 86400` rounded toward zero, and when the duration is
nonnegative this coincides with the floored quotient
`floor(seconds / 86400)`. -/
theorem days_eq_trunc_div_seconds (domain : String) (ca : Int) (env : Env) (r : CheckResult)
    (h : checkCertificate domain ca env = Except.ok r) (hok : r.ok = true) :
    r.days = Int.tdiv r.seconds 86400
    ∧ (0 ≤ r.seconds → r.days = Int.fdiv r.seconds 86400) := by
  rcases checkCertificate_ok_shape domain ca env r h with hnew | ⟨certs, ts, _, _, _, hrec⟩
  · rw [hnew] at hok
    simp [CheckResult.new] at hok
  · subst hrec
    refine ⟨rfl, fun hpos => ?_⟩
    simp only
    rw [Int.fdiv_eq_tdiv hpos (by norm_num)]

/-- C3 witness: the amended relation instantiated at the successful
environment `envGood`. -/
theorem days_eq_trunc_div_seconds_witness :
    rGood.days = Int.tdiv rGood.seconds 86400
    ∧ (0 ≤ rGood.seconds → rGood.days = Int.fdiv rGood.seconds 86400) :=
  days_eq_trunc_div_seconds "example.com" 100 envGood rGood rfl rfl

/-- C4: for every successful check, `not_after` equals `checked_at`
plus `seconds`, both timestamps being whole seconds. -/
theorem not_after_eq_checked_at_add_seconds (domain : String) (ca : Int) (env : Env)
    (r : CheckResult) (h : checkCertificate domain ca env = Except.ok r)
    (hok : r.ok = true) :
    r.not_after = r.checked_at + r.seconds := by
  rcases checkCertificate_ok_shape domain ca env r h with hnew | ⟨certs, ts, _, _, _, hrec⟩
  · rw [hnew] at hok
    simp [CheckResult.new] at hok
  · subst hrec
    simp only
    omega

/-- C4 witness: the relation instantiated at the successful environment
`envGood`. -/
theorem not_after_eq_checked_at_add_seconds_witness :
    rGood.not_after = rGood.checked_at + rGood.seconds :=
  not_after_eq_checked_at_add_seconds "example.com" 100 envGood rGood rfl rfl

/-- C5: every `Ok` result with `ok = false` has `days = 0`,
`seconds = 0` and `not_after` at the Unix-epoch sentinel, while
`domain_name` and `checked_at` keep the values from the start of the
check. -/
theorem failed_result_zeroed (domain : String) (ca : Int) (env : Env) (r : CheckResult)
    (h : checkCertificate domain ca env = Except.ok r) (hok : r.ok = false) :
    r.days = 0 ∧ r.seconds = 0 ∧ r.not_after = 0
    ∧ r.domain_name = domain ∧ r.checked_at = ca := by
  rcases checkCertificate_ok_shape domain ca env r h with hnew | ⟨certs, ts, _, _, _, hrec⟩
  · subst hnew
    exact ⟨rfl, rfl, rfl, rfl, rfl⟩
  · subst hrec
    simp at hok

/-- C5 witness: the zero-filled shape instantiated at the environment
whose probe write fails. -/
theorem failed_result_zeroed_witness :
    (CheckResult.new "example.com" 100).days = 0
    ∧ (CheckResult.new "example.com" 100).seconds = 0
    ∧ (CheckResult.new "example.com" 100).not_after = 0
    ∧ (CheckResult.new "example.com" 100).domain_name = "example.com"
    ∧ (CheckResult.new "example.com" 100).checked_at = 100 :=
  failed_result_zeroed "example.com" 100 envWriteFail (CheckResult.new "example.com" 100)
    rfl rfl

/-- C6: after name parse and connect succeed, both soft failures, the
probe write failing or the last certificate failing to parse, return
`Ok` with the zero-filled `CheckResult` that preserves `checked_at` and
has `ok = false`; no error is propagated. -/
theorem soft_failures_yield_ok_false_result (domain : String) (ca : Int) (env : Env)
    (hdns : env.dnsOk = true) (htcp : env.tcpOk = true)
    (h : env.writeOk = false ∨
      ∃ certs, env.peerCerts = some certs ∧ certs.getLast? = some none) :
    checkCertificate domain ca env = Except.ok (CheckResult.new domain ca)
    ∧ (CheckResult.new domain ca).ok = false
    ∧ (CheckResult.new domain ca).checked_at = ca
    ∧ (CheckResult.new domain ca).days = 0
    ∧ (CheckResult.new domain ca).seconds = 0
    ∧ (CheckResult.new domain ca).not_after = 0 := by
  refine ⟨?_, rfl, rfl, rfl, rfl, rfl⟩
  rcases env with ⟨dns, tcp, w, pc⟩
  simp only at hdns htcp
  subst hdns htcp
  rcases h with hw | ⟨certs, hpc, hgl⟩
  · simp only at hw
    subst hw
    simp [checkCertificate]
  · simp only at hpc
    subst hpc
    cases w
    · simp [checkCertificate]
    · simp [checkCertificate, hgl]

/-- C6 witness: the soft-failure conclusion instantiated at the
environment whose probe write fails. -/
theorem soft_failures_yield_ok_false_result_witness :
    checkCertificate "example.com" 100 envWriteFail =
      Except.ok (CheckResult.new "example.com" 100)
    ∧ (CheckResult.new "example.com" 100).ok = false
    ∧ (CheckResult.new "example.com" 100).checked_at = 100
    ∧ (CheckResult.new "example.com" 100).days = 0
    ∧ (CheckResult.new "example.com" 100).seconds = 0
    ∧ (CheckResult.new "example.com" 100).not_after = 0 :=
  soft_failures_yield_ok_false_result "example.com" 100 envWriteFail rfl rfl (Or.inl rfl)

/-- C7: when the handshake and probe write complete but the peer
presented no certificate list or an empty one, the check returns a hard
error and no `CheckResult` is produced. -/
theorem empty_chain_hard_error (domain : String) (ca : Int) (env : Env)
    (hdns : env.dnsOk = true) (htcp : env.tcpOk = true) (hw : env.writeOk = true)
    (h : env.peerCerts = none ∨ env.peerCerts = some []) :
    checkCertificate domain ca env =
      Except.error (CheckError.noPeerCertificates domain)
    ∨ checkCertificate domain ca env = Except.error (CheckError.noCertificate domain) := by
  rcases env with ⟨dns, tcp, w, pc⟩
  simp only at hdns htcp hw
  subst hdns htcp hw
  rcases h with hpc | hpc <;> simp only at hpc <;> subst hpc
  · exact Or.inl (by simp [checkCertificate])
  · exact Or.inr (by simp [checkCertificate])

/-- C7 witness: the hard-error conclusion instantiated at the
environment with no peer chain. -/
theorem empty_chain_hard_error_witness :
    checkCertificate "example.com" 100 envNoChain =
      Except.error (CheckError.noPeerCertificates "example.com")
    ∨ checkCertificate "example.com" 100 envNoChain =
      Except.error (CheckError.noCertificate "example.com") :=
  empty_chain_hard_error "example.com" 100 envNoChain rfl rfl rfl (Or.inl rfl)

/-- C8: the outcome of the check depends on the peer chain only through
its last certificate: two chains with the same last element give the
same result, and when that last certificate parses with notAfter `ts`
the successful result reports exactly `not_after = ts`. -/
theorem last_certificate_determines_result (domain : String) (ca : Int) (e : Env)
    (certs certs2 : List RawCertificate)
    (h : certs.getLast? = certs2.getLast?) :
    checkCertificate domain ca { e with peerCerts := some certs } =
      checkCertificate domain ca { e with peerCerts := some certs2 }
    ∧ ∀ ts : Int, certs.getLast? = some (some ts) →
        e.dnsOk = true → e.tcpOk = true → e.writeOk = true →
        checkCertificate domain ca { e with peerCerts := some certs } =
          Except.ok { ok := true, checked_at := ca, days := Int.tdiv (ts - ca) 86400,
                      domain_name := domain, not_after := ts, seconds := ts - ca } := by
  constructor
  · rcases e with ⟨dns, tcp, w, pc⟩
    simp only [checkCertificate, h]
  · intro ts hgl hdns htcp hw
    exact checkCertificate_eval_success domain ca _ certs ts hdns htcp hw rfl hgl

/-- C8 witness: a two-element chain and the singleton of its last
element give the same result, instantiated concretely. -/
theorem last_certificate_determines_result_witness :
    checkCertificate "example.com" 100 { envGood with peerCerts := some [none, some 200] } =
      checkCertificate "example.com" 100 { envGood with peerCerts := some [some 200] }
    ∧ ∀ ts : Int, ([none, some 200] : List RawCertificate).getLast? = some (some ts) →
        envGood.dnsOk = true → envGood.tcpOk = true → envGood.writeOk = true →
        checkCertificate "example.com" 100 { envGood with peerCerts := some [none, some 200] } =
          Except.ok { ok := true, checked_at := 100, days := Int.tdiv (ts - 100) 86400,
                      domain_name := "example.com", not_after := ts, seconds := ts - 100 } :=
  last_certificate_determines_result "example.com" 100 envGood [none, some 200] [some 200] rfl

/-- C9: serializing the JSON projection of any `CheckResult` and
deserializing it back recovers the projection exactly, so `ok`, `days`,
`domain_name`, `seconds` and the RFC3339 rendering of `checked_at` are
all preserved, while `not_after` does not influence the JSON form at
all and is therefore not recoverable from it. -/
theorem to_json_round_trip (r : CheckResult) :
    CheckResultJSON.deserialize (CheckResultJSON.serialize (CheckResult.to_json r)) =
      some (CheckResult.to_json r)
    ∧ (CheckResult.to_json r).ok = r.ok
    ∧ (CheckResult.to_json r).days = r.days
    ∧ (CheckResult.to_json r).domain_name = r.domain_name
    ∧ (CheckResult.to_json r).seconds = r.seconds
    ∧ (CheckResult.to_json r).checked_at = toRFC3339 r.checked_at
    ∧ ∀ t : Int, CheckResult.to_json { r with not_after := t } = CheckResult.to_json r :=
  ⟨rfl, rfl, rfl, rfl, rfl, rfl, fun _ => rfl⟩

/-- C10: every `Ok` result of the check operation, failed or
successful, satisfies `days = seconds / 86400` with the quotient
rounded toward zero, so `days` is nonnegative whenever `seconds` is and
nonpositive whenever `seconds` is. -/
theorem days_seconds_trunc_relation (domain : String) (ca : Int) (env : Env)
    (r : CheckResult) (h : checkCertificate domain ca env = Except.ok r) :
    r.days = Int.tdiv r.seconds 86400
    ∧ (0 ≤ r.seconds → 0 ≤ r.days)
    ∧ (r.seconds ≤ 0 → r.days ≤ 0) := by
  rcases checkCertificate_ok_shape domain ca env r h with hnew | ⟨certs, ts, _, _, _, hrec⟩
  · subst hnew
    exact ⟨rfl, fun _ => le_refl 0, fun _ => le_refl 0⟩
  · subst hrec
    refine ⟨rfl, fun hpos => ?_, fun hneg => ?_⟩
    · exact Int.tdiv_nonneg hpos (by norm_num)
    · exact tdiv_nonpos_of_nonpos _ hneg

/-- C10 witness: the truncation relation instantiated at the
environment with the expired certificate, where the duration is
negative. -/
theorem days_seconds_trunc_relation_witness :
    resJustExpired.days = Int.tdiv resJustExpired.seconds 86400
    ∧ (0 ≤ resJustExpired.seconds → 0 ≤ resJustExpired.days)
    ∧ (resJustExpired.seconds ≤ 0 → resJustExpired.days ≤ 0) :=
  days_seconds_trunc_relation "example.com" 1 envExpired resJustExpired rfl
